import Mathlib

/-!
# Verification of the kiro-chatbot streaming / upload coordination core

Shallow embedding of the client-side conversation streaming and upload
coordination core of the `kiro-chatbot` repository:

* the Pinia conversations store (`stores/conversations.ts`): per-conversation
  message lists, optimistic insertion, the EventSource streaming session;
* the Pinia files store (`stores/files.ts`): the upload queue map and its
  progress/status updates;
* the `FileUploadArea.vue` component: batch validation (count, size, type)
  of candidate files;
* the `ChatWindow.vue` component: the `uploadedFiles` queue, the remove
  control, and the simulated sequential upload loop;
* the notifications store (`stores/auth.ts`, `useNotificationsStore`) at the
  level needed to observe whether the streaming error path reports to it.

JavaScript `Map` objects are embedded as insertion-ordered association lists
(`Map.set` on an existing key updates the entry in place; on a fresh key it
appends).  JS timestamps (`Date.now()` / `new Date()`) are threaded as
explicit `Nat` parameters.  JS numbers used as progress values are embedded
as `Int`.
-/

namespace Chatbot

/-- Embeds the role field of `Message` in `types/index.ts`: one of `user`,
`assistant`, `system`. -/
inductive Role where
  | user
  | assistant
  | system
deriving DecidableEq, Repr

/-- The `Message` record of `types/index.ts` (`id`, `role`, `content`,
`timestamp`, optional `citations`; citations are kept as an opaque list of
citation ids — no claim inspects their structure). -/
structure Message where
  id : String
  role : Role
  content : String
  timestamp : Nat
  citations : List String
deriving DecidableEq, Repr

/-- A TypeScript `Partial<Message>`: every field optional.  A spread of `u`
over `m` keeps each field of `m` wherever `u` omits it. -/
structure MessageUpdate where
  id : Option String := none
  role : Option Role := none
  content : Option String := none
  timestamp : Option Nat := none
  citations : Option (List String) := none
deriving DecidableEq, Repr

/-- The JS object spread `{...m, ...u}` for a `Message` and a
`Partial<Message>`. -/
def applyUpdate (m : Message) (u : MessageUpdate) : Message :=
  { id := u.id.getD m.id
    role := u.role.getD m.role
    content := u.content.getD m.content
    timestamp := u.timestamp.getD m.timestamp
    citations := u.citations.getD m.citations }

/-- The `StreamChunk` record of `types/index.ts`:
`{id, content, isComplete, messageId?}`. -/
structure StreamChunk where
  id : String
  content : String
  isComplete : Bool
  messageId : Option String
deriving DecidableEq, Repr

/-- JS `a || b` on an optional string: an absent or empty `a` falls back to
`b` (the empty string is falsy). -/
def jsOr (v : Option String) (fallback : String) : String :=
  match v with
  | some s => if s = "" then fallback else s
  | none => fallback

/-- Lookup in an insertion-ordered association list (JS `Map.get`). -/
def mapFind {α : Type} (m : List (String × α)) (k : String) : Option α :=
  (m.find? (fun p => p.1 == k)).map (fun p => p.2)

/-- JS `Map.set`: update the entry of an existing key in place, otherwise
append a new entry at the end. -/
def mapSet {α : Type} (m : List (String × α)) (k : String) (v : α) :
    List (String × α) :=
  if m.any (fun p => p.1 == k) then
    m.map (fun p => if p.1 == k then (k, v) else p)
  else
    m ++ [(k, v)]

/-- An `EventSource` instance created by `startStreaming`.  `handle` is a
fresh allocation identity (two `new EventSource(...)` calls never yield the
same instance); `conversationId` is the `conversationId` argument captured
by the `onmessage`/`onerror` closures registered on that instance. -/
structure Transport where
  handle : Nat
  conversationId : String
deriving DecidableEq, Repr

/-- The state owned by the conversations store (`stores/conversations.ts`)
that the streaming and message operations touch: the `messages` map
(conversation id → ordered message list), the streaming refs, and the
`eventSource` ref.  `openTransport` is the EventSource currently stored in
`eventSource.value` and not yet closed (`close()` or replacement sets it
aside); `nextHandle` allocates fresh transport identities. -/
structure ConvState where
  messages : List (String × List Message)
  isStreaming : Bool
  streamingContent : String
  streamingMessageId : Option String
  openTransport : Option Transport
  nextHandle : Nat
deriving DecidableEq, Repr

/-- Initial state of the store: empty map, no streaming session. -/
def convInit : ConvState :=
  { messages := []
    isStreaming := false
    streamingContent := ""
    streamingMessageId := none
    openTransport := none
    nextHandle := 0 }

/-- `addMessage(conversationId, message)`:
`messages.set(cid, [...(messages.get(cid) || []), message])`. -/
def addMessage (st : ConvState) (cid : String) (msg : Message) : ConvState :=
  let current := (mapFind st.messages cid).getD []
  { st with messages := mapSet st.messages cid (current ++ [msg]) }

/-- Replace the first list element whose `id` matches, merging in the
update (`currentMessages[index] = {...currentMessages[index], ...updates}`). -/
def updateFirst (ms : List Message) (mid : String) (u : MessageUpdate) :
    List Message :=
  match ms with
  | [] => []
  | m :: rest =>
    if m.id = mid then applyUpdate m u :: rest
    else m :: updateFirst rest mid u

/-- `updateMessage(conversationId, messageId, updates)`: find the message by
id (`findIndex`); if present (`index > -1`) merge the partial update into it
in place and re-set the list; otherwise do nothing. -/
def updateMessage (st : ConvState) (cid mid : String) (u : MessageUpdate) :
    ConvState :=
  let current := (mapFind st.messages cid).getD []
  if current.any (fun m => m.id = mid) then
    { st with messages := mapSet st.messages cid (updateFirst current mid u) }
  else
    st

/-- `removeMessage(conversationId, messageId)`: filter the id out and re-set
the list. -/
def removeMessage (st : ConvState) (cid mid : String) : ConvState :=
  let current := (mapFind st.messages cid).getD []
  let remaining := current.filter (fun m => !(m.id == mid))
  { st with messages := mapSet st.messages cid remaining }

/-- Embeds the optimistic-message defaults built by `addOptimisticMessage`
before the partial message of the caller is spread over them: id is
`optimistic-` followed by `Date.now()`, role is `user`, content is empty,
timestamp is the current time.  `now` stands for the value of `Date.now()`. -/
def optimisticDefault (now : Nat) : Message :=
  { id := "optimistic-" ++ toString now
    role := Role.user
    content := ""
    timestamp := now
    citations := [] }

/-- Embeds `addOptimisticMessage(conversationId, message)`: build the
optimistic message by spreading the partial message of the caller over the
defaults, add it with `addMessage`, and return its id. -/
def addOptimisticMessage (st : ConvState) (cid : String) (now : Nat)
    (patch : MessageUpdate) : String × ConvState :=
  let optimisticMessage := applyUpdate (optimisticDefault now) patch
  (optimisticMessage.id, addMessage st cid optimisticMessage)

/-- `stopStreaming()`: close and drop the EventSource, clear the streaming
flags and buffer. -/
def stopStreaming (st : ConvState) : ConvState :=
  { st with
    openTransport := none
    isStreaming := false
    streamingContent := ""
    streamingMessageId := none }

/-- `startStreaming(streamId, conversationId)`: close any prior EventSource
(`if (eventSource.value) eventSource.value.close()`), reset the streaming
flags and buffer, and open a fresh EventSource for the new session.  The new
instance gets a fresh `handle`; the superseded instance is closed, which in
browser semantics means its registered handlers are never invoked again. -/
def startStreaming (st : ConvState) (streamId conversationId : String) :
    ConvState :=
  { st with
    isStreaming := true
    streamingContent := ""
    streamingMessageId := some ("stream-" ++ streamId)
    openTransport := some ⟨st.nextHandle, conversationId⟩
    nextHandle := st.nextHandle + 1 }

/-- An event arriving on a streaming transport: either an `onmessage` event
whose payload parsed to a `StreamChunk` (`some chunk`) or failed to parse
(`none`, `JSON.parse` threw), or an `onerror` event. -/
inductive StreamEvent where
  | message (parsed : Option StreamChunk)
  | fail
deriving DecidableEq, Repr

/-- Delivery of one transport event to the conversations store.  `handle`
identifies the EventSource instance the event arrives on; a closed
EventSource dispatches no events, and the only instance not closed is the
one in `openTransport`, so events on any other handle have no effect.  On
the open instance the registered `onmessage` handler runs: a parse failure
or error event does `stopStreaming()`; a terminal chunk builds the assistant
message from the supplied `messageId` (falling back through JS `||` to
`streamingMessageId.value!`) and the buffered `streamingContent` — the
content of the terminal chunk itself is never appended — then `addMessage` and
`stopStreaming()`; a non-terminal chunk appends its content to the buffer.
`now` is the event-time `new Date()`. -/
def deliverEvent (st : ConvState) (handle : Nat) (now : Nat)
    (ev : StreamEvent) : ConvState :=
  match st.openTransport with
  | none => st
  | some tr =>
    if tr.handle = handle then
      match ev with
      | StreamEvent.fail => stopStreaming st
      | StreamEvent.message none => stopStreaming st
      | StreamEvent.message (some chunk) =>
        if chunk.isComplete then
          let assistantMessage : Message :=
            { id := jsOr chunk.messageId ((st.streamingMessageId).getD "")
              role := Role.assistant
              content := st.streamingContent
              timestamp := now
              citations := [] }
          stopStreaming (addMessage st tr.conversationId assistantMessage)
        else
          { st with streamingContent := st.streamingContent ++ chunk.content }
    else st

/-- Deliver a list of events in order on one transport handle. -/
def runDeliver (st : ConvState) (handle : Nat) (now : Nat)
    (evs : List StreamEvent) : ConvState :=
  evs.foldl (fun s e => deliverEvent s handle now e) st

/-- Concatenation, in arrival order, of the `content` fields of a list of
chunks. -/
def concatContents : List StreamChunk → String
  | [] => ""
  | c :: cs => c.content ++ concatContents cs

/-! ## Notifications store (`stores/auth.ts`, `useNotificationsStore`) and
the application-level view of streaming

Only the observation needed by the error-surfacing behaviour is embedded:
the list of live notifications.  The streaming handlers of the
conversations store (the `onmessage` catch branch and `onerror`) call only
`console.error` and `stopStreaming()`; they never call the notifications
store, so delivering a streaming event leaves the notification list
untouched. -/

/-- A notification of `useNotificationsStore` (`id`, `type`, `title`,
optional `message`); fields beyond identity are kept because `error(...)`
would populate them if it were ever called from the streaming path. -/
structure Notification where
  id : String
  severity : String
  title : String
  text : Option String
deriving DecidableEq, Repr

/-- Application state: the conversations store together with the live
notification list of the notifications store. -/
structure AppState where
  conv : ConvState
  notifications : List Notification
deriving DecidableEq, Repr

/-- `startStreaming` at the application level: mutates only the
conversations store. -/
def appStartStreaming (st : AppState) (streamId conversationId : String) :
    AppState :=
  { st with conv := startStreaming st.conv streamId conversationId }

/-- Delivery of a streaming transport event at the application level.  The
handlers registered in `startStreaming` reference no notification API — the
parse-failure branch runs `console.error` followed by `stopStreaming()` and
`onerror` likewise runs `console.error` followed by `stopStreaming()` — so
the notification list is unchanged by construction. -/
def appDeliverEvent (st : AppState) (handle now : Nat) (ev : StreamEvent) :
    AppState :=
  { st with conv := deliverEvent st.conv handle now ev }

/-! ## Upload queue data model (`types/index.ts`, `stores/files.ts`,
`ChatWindow.vue`) -/

/-- Embeds the status field of `UploadedFile`: one of `pending`, `uploading`,
`completed`, `error`. -/
inductive FileStatus where
  | pending
  | uploading
  | completed
  | error
deriving DecidableEq, Repr

/-- The `UploadedFile` record of `types/index.ts`.  `progress` is the field
written by the upload loop of `ChatWindow.vue`, `uploadProgress` the one
written by the files store; both are optional numbers. -/
structure UploadedFile where
  id : String
  name : String
  size : Nat
  mimeType : String
  status : FileStatus
  progress : Option Int := none
  uploadProgress : Option Int := none
  url : Option String := none
  errorText : Option String := none
deriving DecidableEq, Repr

/-- The fields of a browser `File` object that the validation and enqueue
code reads: `name`, `size`, `type`. -/
structure FileMeta where
  name : String
  size : Nat
  mimeType : String
deriving DecidableEq, Repr

/-! ## `FileUploadArea.vue`: batch validation (`processFiles`,
`isValidFileType`) -/

/-- The hardcoded MIME allow-list of `FileUploadArea.isValidFileType`. -/
def allowedTypes : List String :=
  [ "text/plain"
  , "text/log"
  , "application/json"
  , "image/png"
  , "image/jpeg"
  , "image/gif"
  , "application/pdf"
  , "application/msword"
  , "application/vnd.openxmlformats-officedocument.wordprocessingml.document" ]

/-- The hardcoded extension allow-list of `FileUploadArea.isValidFileType`. -/
def allowedExtensions : List String :=
  [ ".txt", ".log", ".json", ".png", ".jpg", ".jpeg", ".gif"
  , ".pdf", ".doc", ".docx" ]

/-- JS `String.prototype.toLowerCase` restricted to the ASCII range (the
allow-listed extensions are ASCII, so nothing below depends on Unicode
case folding): lowercase each character. -/
def lowerAscii (s : String) : String :=
  ⟨s.data.map Char.toLower⟩

/-- JS `String.prototype.endsWith`: the second string is a suffix of the
first. -/
def strEndsWith (s suffix : String) : Bool :=
  suffix.data.isSuffixOf s.data

/-- `isValidFileType(file)`: the MIME type is allow-listed, OR the lowercased
file name ends with an allow-listed extension — either match suffices. -/
def isValidFileType (f : FileMeta) : Bool :=
  allowedTypes.contains f.mimeType ||
    allowedExtensions.any (fun ext => strEndsWith (lowerAscii f.name) ext)

/-- One pass of the `processFiles` validation loop over an admitted batch,
producing `(validFiles, errors)` in loop order: an oversize file contributes
a "too large" error and is skipped (`continue`); a file of invalid type
contributes a "not a supported file type" error and is skipped; otherwise
the file is pushed onto `validFiles`.  `fmt` abstracts `formatFileSize`
(whose exact output uses floating-point `Math.log` and is irrelevant to
every property below). -/
def scanBatch (maxFileSize : Nat) (fmt : Nat → String) :
    List FileMeta → List FileMeta × List String
  | [] => ([], [])
  | f :: fs =>
    let r := scanBatch maxFileSize fmt fs
    if f.size > maxFileSize then
      (r.1, (f.name ++ " is too large (max " ++ fmt maxFileSize ++ ")") :: r.2)
    else if !isValidFileType f then
      (r.1, (f.name ++ " is not a supported file type") :: r.2)
    else
      (f :: r.1, r.2)

/-- The observable outcome of `processFiles`: the single aggregated
`upload-error` emission (if any) and the batch emitted via `files-selected`
(empty when nothing valid — the component then simply does not emit, which
has the same effect on the queue). -/
structure ProcessResult where
  uploadError : Option String
  filesSelected : List FileMeta
deriving DecidableEq, Repr

/-- `FileUploadArea.processFiles(files)`: if admitting the batch would push
the queue length (`props.files.length`) past `props.maxFiles`, emit
`upload-error` "Maximum N files allowed" and return — nothing is selected;
otherwise validate each file independently, emit the errors joined with
", " as one `upload-error` (if any), and emit the valid files. -/
def processFiles (fmt : Nat → String) (queueLen maxFiles maxFileSize : Nat)
    (files : List FileMeta) : ProcessResult :=
  if queueLen + files.length > maxFiles then
    { uploadError := some ("Maximum " ++ toString maxFiles ++ " files allowed")
      filesSelected := [] }
  else
    let vr := scanBatch maxFileSize fmt files
    { uploadError :=
        if vr.2.isEmpty then none else some (String.intercalate ", " vr.2)
      filesSelected := vr.1 }

/-! ## `ChatWindow.vue`: the `uploadedFiles` queue -/

/-- The `UploadedFile` object built by `ChatWindow.handleFilesSelected` for
one selected browser file: fresh id, file metadata, status `pending`. -/
def mkPendingFile (id : String) (f : FileMeta) : UploadedFile :=
  { id := id
    name := f.name
    size := f.size
    mimeType := f.mimeType
    status := FileStatus.pending }

/-- `ChatWindow.handleFilesSelected(files)`: map the selected files to
pending `UploadedFile` entries (each with a `generateId()` result, supplied
here as the list `ids`) and push them onto `uploadedFiles`. -/
def handleFilesSelected (ids : List String) (queue : List UploadedFile)
    (files : List FileMeta) : List UploadedFile :=
  queue ++ List.zipWith mkPendingFile ids files

/-- `ChatWindow.handleFileRemove(fileId)`:
`uploadedFiles = uploadedFiles.filter(f => f.id !== fileId)`. -/
def handleFileRemove (queue : List UploadedFile) (fileId : String) :
    List UploadedFile :=
  queue.filter (fun f => !(f.id == fileId))

/-- A user click on the remove button of entry `fileId` in
`FileUploadArea.vue`.  The button is rendered disabled exactly when the
status of its entry is `uploading`; a disabled button fires no click, so
the `file-remove` emission (and hence `handleFileRemove`) happens only when
the status of the entry is not `uploading`. -/
def userRemoveClick (queue : List UploadedFile) (fileId : String) :
    List UploadedFile :=
  match queue.find? (fun f => f.id == fileId) with
  | none => queue
  | some f =>
    if f.status = FileStatus.uploading then queue
    else handleFileRemove queue fileId

/-! ## Files store (`stores/files.ts`): the `uploadQueue` map -/

/-- `stores/files.ts` `updateFileProgress(fileId, progress)`: look the entry
up in the `uploadQueue` map; if present, re-set it with `uploadProgress`
equal to the given progress and with status `completed` when the progress
is exactly 100 and `uploading` otherwise (the previous status is ignored);
if absent, do nothing. -/
def updateFileProgress (q : List (String × UploadedFile)) (fileId : String)
    (progress : Int) : List (String × UploadedFile) :=
  match mapFind q fileId with
  | none => q
  | some f =>
    mapSet q fileId
      { f with
        uploadProgress := some progress
        status :=
          if progress = 100 then FileStatus.completed
          else FileStatus.uploading }

/-! ## `ChatWindow.vue`: the simulated upload loop (`startFileUpload`)

`startFileUpload(files)` runs, per selected batch:

```
isUploading.value = true
for (const file of files) {
  file.status = uploading
  for (let progress = 0; progress <= 100; progress += 10) {
    file.progress = progress
    uploadProgress.value = progress
    await sleep(100)
  }
  file.status = completed
}
isUploading.value = false
```

Execution is single-threaded and cooperative: the code between two `await`s
runs atomically.  The embedding cuts the loop at its `await` points into
atomic segments (`UploadAction`), so a list of actions is a schedule of
observable steps.  Because `startFileUpload` is invoked without `await` from
`handleFilesSelected`, two batches selected in succession interleave their
segment lists at these points. -/

/-- The upload-progress slice of `ChatWindow.vue` state: the `uploadedFiles`
ref, the `uploadProgress` ref and the `isUploading` ref. -/
structure ChatUploadState where
  files : List UploadedFile
  uploadProgress : Int
  isUploading : Bool
deriving DecidableEq, Repr

/-- Set the `status` of every `uploadedFiles` entry with the given id (the
loop mutates the entry object in place; entries are identified by id). -/
def setStat (fs : List UploadedFile) (id : String) (s : FileStatus) :
    List UploadedFile :=
  fs.map (fun f => if f.id = id then { f with status := s } else f)

/-- Set the `progress` of every `uploadedFiles` entry with the given id. -/
def setProg (fs : List UploadedFile) (id : String) (p : Int) :
    List UploadedFile :=
  fs.map (fun f => if f.id = id then { f with progress := some p } else f)

/-- One atomic segment (code between two `await` suspension points) of the
upload machinery:

* `select f id` — `handleFilesSelected` appends a pending entry (runs in the
  same synchronous block as the following `start`);
* `start id` — loop entry for the first file of a batch:
  `isUploading := true`, the file becomes `uploading` with `progress := 0`,
  and `uploadProgress := 0`;
* `advance id p` — one inner-loop iteration: `file.progress := p;
  uploadProgress := p`;
* `handoff prev next` — the segment between two files of one batch:
  `prev` becomes `completed`, `next` becomes `uploading` with
  `progress := 0`, and `uploadProgress := 0`;
* `finish id` — after the last file: it becomes `completed` and
  `isUploading := false`. -/
inductive UploadAction where
  | select (f : FileMeta) (id : String)
  | start (id : String)
  | advance (id : String) (p : Int)
  | handoff (prev next : String)
  | finish (id : String)
deriving DecidableEq, Repr

/-- Effect of one atomic segment on the upload state. -/
def execUpload (st : ChatUploadState) : UploadAction → ChatUploadState
  | UploadAction.select f id =>
    { st with files := st.files ++ [mkPendingFile id f] }
  | UploadAction.start id =>
    { st with
      isUploading := true
      files := setProg (setStat st.files id FileStatus.uploading) id 0
      uploadProgress := 0 }
  | UploadAction.advance id p =>
    { st with files := setProg st.files id p, uploadProgress := p }
  | UploadAction.handoff prev next =>
    { st with
      files :=
        setProg (setStat (setStat st.files prev FileStatus.completed) next
          FileStatus.uploading) next 0
      uploadProgress := 0 }
  | UploadAction.finish id =>
    { st with
      files := setStat st.files id FileStatus.completed
      isUploading := false }

/-- The ten inner-loop iterations after the first (`progress = 10 … 100`);
the `progress = 0` iteration is part of the `start`/`handoff` segment. -/
def perFile (id : String) : List UploadAction :=
  (List.range 10).map (fun k => UploadAction.advance id (10 * ((k : Int) + 1)))

/-- The segments of one batch after the inner loop of its first file. -/
def restTrace : String → List String → List UploadAction
  | prev, [] => [UploadAction.finish prev]
  | prev, j :: rest =>
    UploadAction.handoff prev j :: (perFile j ++ restTrace j rest)

/-- The full segment list of `startFileUpload` on a batch of entry ids (the
batch `handleFilesSelected` just appended).  An empty batch performs no
observable segment. -/
def batchTrace : List String → List UploadAction
  | [] => []
  | i :: rest => UploadAction.start i :: (perFile i ++ restTrace i rest)

/-- The segments of one complete user flow for a single-file selection:
`handleFilesSelected` appends the pending entry and synchronously starts
its upload. -/
def flowTrace (f : FileMeta) (id : String) : List UploadAction :=
  UploadAction.select f id :: batchTrace [id]

/-- Run a schedule of atomic segments. -/
def runUpload (st : ChatUploadState) (acts : List UploadAction) :
    ChatUploadState :=
  acts.foldl execUpload st

/-- All states visited while running a schedule (the state before each
segment and the final state) — the observable points of the execution. -/
def statesFrom (st : ChatUploadState) : List UploadAction →
    List ChatUploadState
  | [] => [st]
  | a :: acts => st :: statesFrom (execUpload st a) acts

/-- The `progress` values of the entries currently in `uploading` status (an
unset `progress` reads as 0, as in `file.progress || 0` in the template). -/
def uploadingProgresses (st : ChatUploadState) : List Int :=
  (st.files.filter (fun f => f.status == FileStatus.uploading)).map
    (fun f => f.progress.getD 0)

/-- Arithmetic mean of a list of numbers (integer division). -/
def meanList (l : List Int) : Int :=
  l.sum / (l.length : Int)

/-! ## Derived scenario compositions and specification predicates -/

/-- The reconciliation update that carries every field of an authoritative
message: spreading it over any entry yields exactly that message. -/
def toFullUpdate (m : Message) : MessageUpdate :=
  { id := some m.id
    role := some m.role
    content := some m.content
    timestamp := some m.timestamp
    citations := some m.citations }

/-- The verdict of the `processFiles` loop on a single file of an admitted
batch: the error message it contributes, or `none` when it is accepted. -/
def fileError (maxFileSize : Nat) (fmt : Nat → String) (f : FileMeta) :
    Option String :=
  if f.size > maxFileSize then
    some (f.name ++ " is too large (max " ++ fmt maxFileSize ++ ")")
  else if !isValidFileType f then
    some (f.name ++ " is not a supported file type")
  else
    none

/-- Acceptance of a single file of an admitted batch: within the size limit
and of a valid type. -/
def acceptedFile (maxFileSize : Nat) (f : FileMeta) : Bool :=
  decide (f.size ≤ maxFileSize) && isValidFileType f

/-- One full streaming session as the spec describes it: open the session,
deliver a list of fragments on the transport of that session, then deliver
the terminal fragment. -/
def streamSessionRun (st : ConvState) (sid cid : String) (now : Nat)
    (chunks : List StreamChunk) (ct : StreamChunk) : ConvState :=
  deliverEvent
    (runDeliver (startStreaming st sid cid) st.nextHandle now
      (chunks.map (fun c => StreamEvent.message (some c))))
    st.nextHandle now (StreamEvent.message (some ct))

/-- Deliver a list of transport events at the application level. -/
def appRunDeliver (st : AppState) (handle now : Nat)
    (evs : List StreamEvent) : AppState :=
  evs.foldl (fun s e => appDeliverEvent s handle now e) st

/-- A streaming session that fails: open the session, deliver a list of
well-formed non-terminal fragments, then hit a failure event (a malformed
fragment or a transport error event). -/
def streamFailureRun (st : AppState) (sid cid : String) (now : Nat)
    (chunks : List StreamChunk) (ev : StreamEvent) : AppState :=
  appDeliverEvent
    (appRunDeliver (appStartStreaming st sid cid) st.conv.nextHandle now
      (chunks.map (fun c => StreamEvent.message (some c))))
    st.conv.nextHandle now ev

/-- No queue entry is currently in `uploading` status. -/
def NoUploading (st : ChatUploadState) : Prop :=
  ∀ f ∈ st.files, f.status ≠ FileStatus.uploading

/-- Every queue entry currently in `uploading` status belongs to file `i`
and carries exactly the reported aggregate progress. -/
def SoleUploading (st : ChatUploadState) (i : String) : Prop :=
  ∀ f ∈ st.files, f.status = FileStatus.uploading →
    f.id = i ∧ f.progress = some st.uploadProgress

/-! ## Concrete scenario inputs

Inputs used by the closed counterexample and witness theorems below.  The
formatter `fmtKB` stands in for `formatFileSize` (whose floating-point
output is irrelevant to every property proved here). -/

/-- A concrete stand-in for `formatFileSize` in closed runs. -/
def fmtKB : Nat → String := fun _ => "1 KB"

/-- The non-terminal fragment of the testable-properties scenario of the
spec: content `Hello` plus a space, not complete. -/
def chunkHello : StreamChunk :=
  { id := "f1", content := "Hello ", isComplete := false, messageId := none }

/-- The terminal fragment of that scenario: content `world`, complete, with
message id `m1`. -/
def chunkWorld : StreamChunk :=
  { id := "f2", content := "world", isComplete := true, messageId := some "m1" }

/-- The state after running the scenario of the spec: start session `s1` for
conversation `c1`, deliver the `Hello` fragment, then the terminal `world`
fragment. -/
def scenarioC1 : ConvState :=
  streamSessionRun convInit "s1" "c1" 7 [chunkHello] chunkWorld

/-- An application start state with no conversations and no notifications. -/
def appInit : AppState :=
  { conv := convInit, notifications := [] }

/-- A failing session: start `s1` for `c1`, buffer the `Hello` fragment,
then receive a malformed fragment (its payload fails to parse). -/
def scenarioC5 : AppState :=
  streamFailureRun appInit "s1" "c1" 7 [chunkHello] (StreamEvent.message none)

/-- The authoritative message `m1` used in the reconciliation scenario. -/
def finalM1 : Message :=
  { id := "m1", role := Role.user, content := "hi", timestamp := 50
    citations := [] }

/-- A plain text file within every limit. -/
def fileOk : FileMeta :=
  { name := "ok.txt", size := 10, mimeType := "text/plain" }

/-- A plain text file of size 2048 bytes — oversize when the maximum is
1024. -/
def fileBig : FileMeta :=
  { name := "big.txt", size := 2048, mimeType := "text/plain" }

/-- A file with an unlisted MIME type but an allow-listed `.txt` extension. -/
def fileCustom : FileMeta :=
  { name := "notes.txt", size := 10, mimeType := "application/x-custom" }

/-- A queue that already holds two completed entries. -/
def queueTwo : List UploadedFile :=
  [ { mkPendingFile "q1" fileOk with status := FileStatus.completed }
  , { mkPendingFile "q2" fileOk with status := FileStatus.completed } ]

/-- A queue holding a single entry that is currently uploading. -/
def queueUploading : List UploadedFile :=
  [ { mkPendingFile "f1" fileOk with status := FileStatus.uploading } ]

/-- The same queue after the entry reached `completed` status. -/
def queueCompleted : List UploadedFile :=
  [ { mkPendingFile "f1" fileOk with status := FileStatus.completed } ]

/-- A files-store upload queue holding one entry in `error` status. -/
def storeQueueErr : List (String × UploadedFile) :=
  [ ("f1", { mkPendingFile "f1" fileOk with status := FileStatus.error }) ]

/-- First selected file of the concurrent-upload scenario. -/
def fileA : FileMeta := { name := "a.txt", size := 4, mimeType := "text/plain" }

/-- Second selected file of the concurrent-upload scenario. -/
def fileB : FileMeta := { name := "b.txt", size := 4, mimeType := "text/plain" }

/-- The initial `ChatWindow` upload state: no files, no progress. -/
def chatInit : ChatUploadState :=
  { files := [], uploadProgress := 0, isUploading := false }

/-- A reachable concurrent schedule: the user selects `a.txt` and its upload
advances to 50 percent (the first seven segments of its flow), then — at
that `await` point — the user selects `b.txt`, whose flow runs its first two
segments (append pending entry, enter the upload loop).  Each flow
contributes a prefix of its own segment list, so this is an interleaving of
two genuine executions. -/
def schedC9 : List UploadAction :=
  (flowTrace fileA "a").take 7 ++ (flowTrace fileB "b").take 2

/-- The state reached by the concurrent schedule. -/
def stateC9 : ChatUploadState :=
  runUpload chatInit schedC9

/-- A single-file start state for the single-batch witness run: the pending
entry `a.txt` was just appended by `handleFilesSelected`. -/
def chatSingle : ChatUploadState :=
  { files := [mkPendingFile "a" fileA], uploadProgress := 0
    isUploading := false }

/-- An intermediate observable state of the single-batch run: six segments
in, the upload of `a.txt` stands at 50 percent. -/
def stateC9Mid : ChatUploadState :=
  runUpload chatSingle ((batchTrace ["a"]).take 6)

/-! ## Supporting lemmas -/

theorem mapFind_overwrite {α : Type} (m : List (String × α)) (k : String)
    (v : α) :
    mapFind (m.map (fun p => if p.1 == k then (k, v) else p)) k =
      if m.any (fun p => p.1 == k) then some v else none := by
  induction m with
  | nil => rfl
  | cons p rest ih =>
    simp only [List.map_cons, List.any_cons]
    by_cases h : (p.1 == k) = true
    · rw [if_pos h, if_pos (show ((p.1 == k) || rest.any fun q => q.1 == k) =
        true by simp [h])]
      unfold mapFind
      simp [List.find?]
    · have hb : (p.1 == k) = false := by simpa using h
      rw [if_neg h]
      simp only [hb, Bool.false_or]
      unfold mapFind
      simp only [List.find?, hb]
      exact ih

theorem mapFind_mapSet_self {α : Type} (m : List (String × α)) (k : String)
    (v : α) : mapFind (mapSet m k v) k = some v := by
  unfold mapSet
  by_cases h : m.any (fun p => p.1 == k) = true
  · rw [if_pos h, mapFind_overwrite, if_pos h]
  · rw [if_neg h]
    have hnone : m.find? (fun p => p.1 == k) = none := by
      rw [List.find?_eq_none]
      intro x hx hpx
      exact h (List.any_eq_true.mpr ⟨x, hx, hpx⟩)
    simp [mapFind, List.find?_append, hnone]

/-- Claim C10: for an entry present in the upload queue, `updateFileProgress`
sets its status to `completed` exactly when the progress value is 100 and to
`uploading` otherwise, regardless of the previous status of the entry, and
records the progress value; for an absent id the queue is unchanged. -/
theorem updateFileProgress_progress_driven_status
    (q : List (String × UploadedFile)) (fileId : String) (p : Int) :
    (mapFind q fileId = none → updateFileProgress q fileId p = q) ∧
    (∀ f, mapFind q fileId = some f →
      mapFind (updateFileProgress q fileId p) fileId =
        some { f with
               uploadProgress := some p
               status :=
                 if p = 100 then FileStatus.completed
                 else FileStatus.uploading }) := by
  constructor
  · intro h
    simp [updateFileProgress, h]
  · intro f h
    simp [updateFileProgress, h, mapFind_mapSet_self]

/-- Witness for C10: an entry currently in `error` status is moved to
`uploading` by a progress update of 50. -/
theorem updateFileProgress_progress_driven_status_witness :
    mapFind (updateFileProgress storeQueueErr "f1" 50) "f1" =
      some { mkPendingFile "f1" fileOk with
             status := FileStatus.uploading
             uploadProgress := some (50 : Int) } :=
  ((updateFileProgress_progress_driven_status storeQueueErr "f1" 50).2
      { mkPendingFile "f1" fileOk with status := FileStatus.error }
      (by decide)).trans (by decide)

/-- Claim C6: a user removal click on an entry whose status is `uploading`
leaves the queue unchanged (the remove button is disabled), while on the
same entry in `completed` or `error` status it removes the entry. -/
theorem remove_entry_uploading_guard (queue : List UploadedFile)
    (fid : String) (f : UploadedFile)
    (hfind : queue.find? (fun g => g.id == fid) = some f) :
    (f.status = FileStatus.uploading → userRemoveClick queue fid = queue) ∧
    (f.status = FileStatus.completed ∨ f.status = FileStatus.error →
      userRemoveClick queue fid = handleFileRemove queue fid ∧
      ∀ g ∈ userRemoveClick queue fid, g.id ≠ fid) := by
  constructor
  · intro hs
    simp [userRemoveClick, hfind, hs]
  · intro hs
    have hne : f.status ≠ FileStatus.uploading := by
      rcases hs with h | h <;> simp [h]
    have hclick : userRemoveClick queue fid = handleFileRemove queue fid := by
      simp [userRemoveClick, hfind, hne]
    refine ⟨hclick, ?_⟩
    intro g hg
    rw [hclick] at hg
    have := (List.mem_filter.mp hg).2
    simpa using this

/-- Witness for C6: removing the single uploading entry is a no-op; after
the entry transitions to `completed`, removal empties the queue. -/
theorem remove_entry_uploading_guard_witness :
    userRemoveClick queueUploading "f1" = queueUploading ∧
    userRemoveClick queueCompleted "f1" = [] :=
  ⟨((remove_entry_uploading_guard queueUploading "f1"
        { mkPendingFile "f1" fileOk with status := FileStatus.uploading }
        (by decide)).1 (by decide)),
   ((remove_entry_uploading_guard queueCompleted "f1"
        { mkPendingFile "f1" fileOk with status := FileStatus.completed }
        (by decide)).2 (Or.inl rfl)).1.trans (by decide)⟩

/-- Claim C2: starting a second streaming session supersedes the first: the
new session owns a transport distinct from the old one, the buffer is
discarded, exactly this new transport is open, and every event arriving on
the old transport leaves the state unchanged. -/
theorem startStreaming_supersedes (st : ConvState) (s1 c1 s2 c2 : String) :
    (startStreaming st s1 c1).openTransport = some ⟨st.nextHandle, c1⟩ ∧
    (startStreaming (startStreaming st s1 c1) s2 c2).openTransport =
      some ⟨st.nextHandle + 1, c2⟩ ∧
    st.nextHandle + 1 ≠ st.nextHandle ∧
    (startStreaming (startStreaming st s1 c1) s2 c2).streamingContent = "" ∧
    ∀ (now : Nat) (ev : StreamEvent),
      deliverEvent (startStreaming (startStreaming st s1 c1) s2 c2)
        st.nextHandle now ev =
        startStreaming (startStreaming st s1 c1) s2 c2 := by
  refine ⟨rfl, rfl, Nat.succ_ne_self _, rfl, ?_⟩
  intro now ev
  simp [deliverEvent, startStreaming, Nat.succ_ne_self]

theorem applyUpdate_toFullUpdate (m0 m : Message) :
    applyUpdate m0 (toFullUpdate m) = m := rfl

theorem updateFirst_append_last (xs : List Message) (o : Message)
    (u : MessageUpdate) (hx : ∀ x ∈ xs, x.id ≠ o.id) :
    updateFirst (xs ++ [o]) o.id u = xs ++ [applyUpdate o u] := by
  induction xs with
  | nil => simp [updateFirst]
  | cons x rest ih =>
    have hxo : x.id ≠ o.id := hx x (by simp)
    simp only [List.cons_append, updateFirst, if_neg hxo]
    exact congrArg (fun l => x :: l) (ih (fun y hy => hx y (by simp [hy])))

/-- Claim C3: a message appended optimistically and then reconciled with the
authoritative message `m1` — the entry carrying the temporary id is updated
in place with every field of `m1` — yields exactly one message for it, at
the position of the optimistic entry (the end of the prior list), under the
identity of `m1`; never two entries. -/
theorem optimistic_reconcile_in_place (st : ConvState) (cid : String)
    (now : Nat) (patch : MessageUpdate) (m1 : Message)
    (hfresh : ∀ m ∈ (mapFind st.messages cid).getD [],
      m.id ≠ (applyUpdate (optimisticDefault now) patch).id) :
    mapFind (updateMessage (addOptimisticMessage st cid now patch).2 cid
        (addOptimisticMessage st cid now patch).1
        (toFullUpdate m1)).messages cid =
      some ((mapFind st.messages cid).getD [] ++ [m1]) := by
  have hid : (addOptimisticMessage st cid now patch).1 =
      (applyUpdate (optimisticDefault now) patch).id := rfl
  have hadd : (addOptimisticMessage st cid now patch).2.messages =
      mapSet st.messages cid ((mapFind st.messages cid).getD [] ++
        [applyUpdate (optimisticDefault now) patch]) := rfl
  have hfind1 :
      mapFind (addOptimisticMessage st cid now patch).2.messages cid =
        some ((mapFind st.messages cid).getD [] ++
          [applyUpdate (optimisticDefault now) patch]) := by
    rw [hadd]; exact mapFind_mapSet_self _ _ _
  have hany : (((mapFind (addOptimisticMessage st cid now patch).2.messages
        cid).getD []).any
        (fun m => m.id = (addOptimisticMessage st cid now patch).1)) =
        true := by
    rw [hfind1, hid]
    simp
  unfold updateMessage
  rw [if_pos hany, hfind1]
  simp only [Option.getD_some, hid]
  rw [updateFirst_append_last _ _ _ hfresh, applyUpdate_toFullUpdate]
  exact mapFind_mapSet_self _ _ _

/-- Witness for C3: reconciling an optimistic entry in an empty conversation
with `m1` leaves exactly the single message `m1`. -/
theorem optimistic_reconcile_in_place_witness :
    mapFind (updateMessage (addOptimisticMessage convInit "c1" 42
        { content := some "hi" }).2 "c1"
        (addOptimisticMessage convInit "c1" 42 { content := some "hi" }).1
        (toFullUpdate finalM1)).messages "c1" = some [finalM1] :=
  (optimistic_reconcile_in_place convInit "c1" 42 { content := some "hi" }
      finalM1 (by decide)).trans (by decide)

theorem runDeliver_buffering (chunks : List StreamChunk) :
    ∀ (st : ConvState) (hdl now : Nat) (tr : Transport),
      st.openTransport = some tr → tr.handle = hdl →
      (∀ c ∈ chunks, c.isComplete = false) →
      runDeliver st hdl now
          (chunks.map (fun c => StreamEvent.message (some c))) =
        { st with streamingContent :=
            st.streamingContent ++ concatContents chunks } := by
  induction chunks with
  | nil =>
    intro st hdl now tr _ _ _
    simp [runDeliver, concatContents]
  | cons c cs ih =>
    intro st hdl now tr hopen hh hall
    have hc : c.isComplete = false := hall c (by simp)
    have hstep : deliverEvent st hdl now (StreamEvent.message (some c)) =
        { st with streamingContent := st.streamingContent ++ c.content } := by
      simp [deliverEvent, hopen, hh, hc]
    have hfold : runDeliver st hdl now
        ((c :: cs).map (fun d => StreamEvent.message (some d))) =
        runDeliver (deliverEvent st hdl now (StreamEvent.message (some c)))
          hdl now (cs.map (fun d => StreamEvent.message (some d))) := rfl
    rw [hfold, hstep,
      ih _ hdl now tr (by simpa using hopen) hh
        (fun x hx => hall x (by simp [hx]))]
    simp [concatContents, String.append_assoc]

/-- Claim C1 (amended): a full streaming session — open, any run of
non-terminal fragments, then a terminal fragment — appends exactly one new
assistant message to the owning conversation, whose id is the messageId of
the terminal fragment (or the stream identity of the session when none is
given) and whose content is the concatenation, in arrival order, of the
non-terminal fragments only (the content of the terminal fragment itself is
discarded), and the coordinator returns to Idle with the buffer cleared and
the transport closed. -/
theorem streaming_session_appends_one_message (st : ConvState)
    (sid cid : String) (now : Nat) (chunks : List StreamChunk)
    (ct : StreamChunk) (hchunks : ∀ c ∈ chunks, c.isComplete = false)
    (hct : ct.isComplete = true) :
    mapFind (streamSessionRun st sid cid now chunks ct).messages cid =
      some ((mapFind st.messages cid).getD [] ++
        [{ id := jsOr ct.messageId ("stream-" ++ sid)
           role := Role.assistant
           content := concatContents chunks
           timestamp := now
           citations := [] }]) ∧
    (streamSessionRun st sid cid now chunks ct).isStreaming = false ∧
    (streamSessionRun st sid cid now chunks ct).streamingContent = "" ∧
    (streamSessionRun st sid cid now chunks ct).openTransport = none := by
  have h1 : runDeliver (startStreaming st sid cid) st.nextHandle now
      (chunks.map (fun c => StreamEvent.message (some c))) =
      { startStreaming st sid cid with
        streamingContent := "" ++ concatContents chunks } :=
    runDeliver_buffering chunks _ _ _ ⟨st.nextHandle, cid⟩ rfl rfl hchunks
  unfold streamSessionRun
  rw [h1]
  refine ⟨?_, ?_, ?_, ?_⟩ <;>
    simp [deliverEvent, startStreaming, stopStreaming, addMessage, hct,
      mapFind_mapSet_self, String.empty_append]

/-- Counterexample for C1 as stated: in the scenario of the spec (a fragment
carrying `Hello` plus a space, then a terminal fragment carrying `world`
with message id `m1`), the conversation gains one message whose content is
only the buffered `Hello` plus space — not the concatenation including the
terminal fragment. -/
theorem streaming_terminal_content_dropped :
    ((mapFind scenarioC1.messages "c1").getD []).map Message.content =
      ["Hello "] ∧
    ((mapFind scenarioC1.messages "c1").getD []).map Message.content ≠
      ["Hello world"] ∧
    ((mapFind scenarioC1.messages "c1").getD []).map Message.id = ["m1"] ∧
    scenarioC1.isStreaming = false ∧
    scenarioC1.streamingContent = "" := by
  decide

/-- Witness for C1 (amended): the concrete scenario yields exactly one
assistant message with id `m1` and content `Hello` plus a space. -/
theorem streaming_session_appends_one_message_witness :
    mapFind (streamSessionRun convInit "s1" "c1" 7 [chunkHello]
        chunkWorld).messages "c1" =
      some [{ id := "m1", role := Role.assistant, content := "Hello "
              timestamp := 7, citations := [] }] :=
  (streaming_session_appends_one_message convInit "s1" "c1" 7 [chunkHello]
      chunkWorld (by decide) (by decide)).1.trans (by decide)

theorem appRunDeliver_conv (evs : List StreamEvent) :
    ∀ (st : AppState) (hdl now : Nat),
      appRunDeliver st hdl now evs =
        { st with conv := runDeliver st.conv hdl now evs } := by
  induction evs with
  | nil => intro st hdl now; rfl
  | cons e es ih =>
    intro st hdl now
    have h1 : appRunDeliver st hdl now (e :: es) =
        appRunDeliver (appDeliverEvent st hdl now e) hdl now es := rfl
    rw [h1, ih]
    rfl

/-- Claim C5 (amended): a malformed fragment or a transport error event
aborts the session — the coordinator returns to Idle with the transport
closed and the buffer cleared — and no partial message is committed: the
entire message map is exactly what it was before the session started.  The
error is only logged to the console; nothing is added to the Notification
Center, whose list is unchanged. -/
theorem stream_failure_aborts_cleanly (st : AppState) (sid cid : String)
    (now : Nat) (chunks : List StreamChunk) (ev : StreamEvent)
    (hchunks : ∀ c ∈ chunks, c.isComplete = false)
    (hev : ev = StreamEvent.message none ∨ ev = StreamEvent.fail) :
    (streamFailureRun st sid cid now chunks ev).conv.isStreaming = false ∧
    (streamFailureRun st sid cid now chunks ev).conv.openTransport = none ∧
    (streamFailureRun st sid cid now chunks ev).conv.streamingContent = "" ∧
    (streamFailureRun st sid cid now chunks ev).conv.messages =
      st.conv.messages ∧
    (streamFailureRun st sid cid now chunks ev).notifications =
      st.notifications := by
  have h1 : runDeliver (startStreaming st.conv sid cid) st.conv.nextHandle
      now (chunks.map (fun c => StreamEvent.message (some c))) =
      { startStreaming st.conv sid cid with
        streamingContent := "" ++ concatContents chunks } :=
    runDeliver_buffering chunks _ _ _ ⟨st.conv.nextHandle, cid⟩ rfl rfl
      hchunks
  unfold streamFailureRun
  rw [show appStartStreaming st sid cid =
    { st with conv := startStreaming st.conv sid cid } from rfl]
  rw [appRunDeliver_conv]
  simp only [appDeliverEvent]
  rw [h1]
  rcases hev with hev | hev <;>
    subst hev <;>
    refine ⟨?_, ?_, ?_, ?_, ?_⟩ <;>
    simp [deliverEvent, startStreaming, stopStreaming]

/-- Counterexample for C5 as stated: after a malformed fragment aborts the
concrete failing session, the Notification Center still holds no
notification at all — the error was never surfaced through it (the code
only calls `console.error`). -/
theorem stream_failure_not_surfaced :
    scenarioC5.notifications = [] ∧
    scenarioC5.conv.isStreaming = false ∧
    scenarioC5.conv.openTransport = none ∧
    mapFind scenarioC5.conv.messages "c1" = none := by
  decide

/-- Witness for C5 (amended): the concrete failing session leaves the
message map and the notification list of the start state untouched. -/
theorem stream_failure_aborts_cleanly_witness :
    (streamFailureRun appInit "s1" "c1" 7 [chunkHello]
        (StreamEvent.message none)).conv.messages = appInit.conv.messages ∧
    (streamFailureRun appInit "s1" "c1" 7 [chunkHello]
        (StreamEvent.message none)).notifications = appInit.notifications :=
  ⟨(stream_failure_aborts_cleanly appInit "s1" "c1" 7 [chunkHello] _
      (by decide) (Or.inl rfl)).2.2.2.1,
   (stream_failure_aborts_cleanly appInit "s1" "c1" 7 [chunkHello] _
      (by decide) (Or.inl rfl)).2.2.2.2⟩

theorem scanBatch_fst (maxFileSize : Nat) (fmt : Nat → String)
    (fs : List FileMeta) :
    (scanBatch maxFileSize fmt fs).1 = fs.filter (acceptedFile maxFileSize) := by
  induction fs with
  | nil => rfl
  | cons f rest ih =>
    by_cases h1 : f.size > maxFileSize
    · have hacc : acceptedFile maxFileSize f = false := by
        simp [acceptedFile, Nat.not_le.mpr h1]
      simp [scanBatch, if_pos h1, hacc, ih]
    · have hle : f.size ≤ maxFileSize := Nat.not_lt.mp h1
      by_cases h2 : isValidFileType f = true
      · have hacc : acceptedFile maxFileSize f = true := by
          simp [acceptedFile, hle, h2]
        simp [scanBatch, if_neg h1, h2, hacc, ih]
      · have hacc : acceptedFile maxFileSize f = false := by
          simp [acceptedFile, h2]
        simp [scanBatch, if_neg h1, h2, hacc, ih]

theorem scanBatch_snd (maxFileSize : Nat) (fmt : Nat → String)
    (fs : List FileMeta) :
    (scanBatch maxFileSize fmt fs).2 =
      fs.filterMap (fileError maxFileSize fmt) := by
  induction fs with
  | nil => rfl
  | cons f rest ih =>
    by_cases h1 : f.size > maxFileSize
    · simp [scanBatch, if_pos h1, fileError, ih]
    · by_cases h2 : isValidFileType f = true
      · simp [scanBatch, if_neg h1, h2, fileError, ih]
      · simp [scanBatch, if_neg h1, h2, fileError, ih]

/-- Claim C4: a batch whose admission would push the queue past the
configured maximum file count is rejected as a whole — the aggregated error
message contains Maximum-N-files, no file of the batch is selected, and the
queue is unchanged. -/
theorem batch_count_overflow_rejected (queue : List UploadedFile)
    (maxFiles maxFileSize : Nat) (fmt : Nat → String) (batch : List FileMeta)
    (ids : List String) (hover : maxFiles < queue.length + batch.length) :
    (∃ post, (processFiles fmt queue.length maxFiles maxFileSize
        batch).uploadError =
      some ("Maximum " ++ toString maxFiles ++ " files" ++ post)) ∧
    (processFiles fmt queue.length maxFiles maxFileSize batch).filesSelected
      = [] ∧
    handleFilesSelected ids queue
      (processFiles fmt queue.length maxFiles maxFileSize
        batch).filesSelected = queue := by
  have hcond : queue.length + batch.length > maxFiles := hover
  refine ⟨⟨" allowed", ?_⟩, ?_, ?_⟩
  · simp only [processFiles, if_pos hcond]
    refine congrArg some ?_
    simp only [String.append_assoc]
    rw [show (" files" ++ " allowed" : String) = " files allowed" from by
      decide]
  · simp [processFiles, if_pos hcond]
  · simp [processFiles, if_pos hcond, handleFilesSelected]

/-- Witness for C4: with a maximum of 2 files and a queue of 2 entries, one
more file leaves the queue unchanged. -/
theorem batch_count_overflow_rejected_witness :
    2 < queueTwo.length + [fileOk].length ∧
    handleFilesSelected ["i1"] queueTwo
      (processFiles fmtKB queueTwo.length 2 1024 [fileOk]).filesSelected =
      queueTwo :=
  ⟨by decide,
   (batch_count_overflow_rejected queueTwo 2 1024 fmtKB [fileOk] ["i1"]
      (by decide)).2.2⟩

/-- Claim C7: within an admitted batch each file is judged independently on
size and type; an oversize file yields an error containing too-large and is
not selected; all rejections are joined into one aggregated error message;
and the accepted files of the same batch still enter the queue. -/
theorem batch_itemwise_validation (queue : List UploadedFile)
    (maxFiles maxFileSize : Nat) (fmt : Nat → String)
    (batch : List FileMeta) (ids : List String)
    (hcount : queue.length + batch.length ≤ maxFiles) :
    (processFiles fmt queue.length maxFiles maxFileSize batch).filesSelected
      = batch.filter (acceptedFile maxFileSize) ∧
    (processFiles fmt queue.length maxFiles maxFileSize batch).uploadError =
      (if (batch.filterMap (fileError maxFileSize fmt)).isEmpty then none
       else some (String.intercalate ", "
         (batch.filterMap (fileError maxFileSize fmt)))) ∧
    (∀ f ∈ batch, maxFileSize < f.size →
      (∃ pre post, fileError maxFileSize fmt f =
        some (pre ++ "too large" ++ post)) ∧
      f ∉ (processFiles fmt queue.length maxFiles maxFileSize
        batch).filesSelected) ∧
    handleFilesSelected ids queue
        (processFiles fmt queue.length maxFiles maxFileSize
          batch).filesSelected =
      queue ++ List.zipWith mkPendingFile ids
        (batch.filter (acceptedFile maxFileSize)) := by
  have hnot : ¬ (queue.length + batch.length > maxFiles) :=
    Nat.not_lt.mpr hcount
  have hsel : (processFiles fmt queue.length maxFiles maxFileSize
      batch).filesSelected = batch.filter (acceptedFile maxFileSize) := by
    simp [processFiles, if_neg hnot, scanBatch_fst]
  refine ⟨hsel, ?_, ?_, ?_⟩
  · simp [processFiles, if_neg hnot, scanBatch_snd]
  · intro f hf hsize
    constructor
    · refine ⟨f.name ++ " is ", " (max " ++ fmt maxFileSize ++ ")", ?_⟩
      have hgt : f.size > maxFileSize := hsize
      simp only [fileError, if_pos hgt]
      refine congrArg some ?_
      have base : (f.name ++ " is too large (max " : String) =
          ((f.name ++ " is ") ++ "too large") ++ " (max " := by
        rw [String.append_assoc, String.append_assoc]
        rw [show (" is " ++ ("too large" ++ " (max ") : String) =
          " is too large (max " from by decide]
      rw [base]
      simp only [String.append_assoc]
    · rw [hsel]
      intro hmem
      have hkeep := (List.mem_filter.mp hmem).2
      simp [acceptedFile, Nat.not_le.mpr hsize] at hkeep
  · rw [hsel]
    rfl

/-- Witness for C7: in a batch of an oversize file and a valid file, only
the valid file is selected and the aggregated error names the oversize
file. -/
theorem batch_itemwise_validation_witness :
    ([] : List UploadedFile).length + [fileBig, fileOk].length ≤ 5 ∧
    (processFiles fmtKB 0 5 1024 [fileBig, fileOk]).filesSelected =
      [fileOk] ∧
    (processFiles fmtKB 0 5 1024 [fileBig, fileOk]).uploadError =
      some "big.txt is too large (max 1 KB)" :=
  ⟨by decide,
   (batch_itemwise_validation [] 5 1024 fmtKB [fileBig, fileOk] ["i1", "i2"]
      (by decide)).1.trans (by decide),
   (batch_itemwise_validation [] 5 1024 fmtKB [fileBig, fileOk] ["i1", "i2"]
      (by decide)).2.1.trans (by decide)⟩

/-- Claim C8: a size-admissible file of a count-admitted batch is selected
iff its MIME type is in the allow-list OR its lowercased name ends in an
allow-listed extension — either match alone suffices. -/
theorem file_type_either_match (queueLen maxFiles maxFileSize : Nat)
    (fmt : Nat → String) (batch : List FileMeta) (f : FileMeta)
    (hcount : queueLen + batch.length ≤ maxFiles) (hmem : f ∈ batch)
    (hsize : f.size ≤ maxFileSize) :
    f ∈ (processFiles fmt queueLen maxFiles maxFileSize batch).filesSelected
      ↔ (f.mimeType ∈ allowedTypes ∨
        ∃ ext ∈ allowedExtensions,
          strEndsWith (lowerAscii f.name) ext = true) := by
  have hnot : ¬ (queueLen + batch.length > maxFiles) := Nat.not_lt.mpr hcount
  simp only [processFiles, if_neg hnot, scanBatch_fst]
  rw [List.mem_filter]
  simp [hmem, acceptedFile, hsize, isValidFileType, List.any_eq_true]

/-- Witness for C8: a file with an unlisted MIME type but a `.txt` name is
accepted into the selection. -/
theorem file_type_either_match_witness :
    fileCustom.mimeType ∉ allowedTypes ∧
    fileCustom ∈ (processFiles fmtKB 0 5 1024 [fileCustom]).filesSelected :=
  ⟨by decide,
   (file_type_either_match 0 5 1024 fmtKB [fileCustom] fileCustom
      (by decide) (by decide) (by decide)).mpr (Or.inr (by decide))⟩

theorem noUploading_select (st : ChatUploadState) (f : FileMeta)
    (id : String) (h : NoUploading st) :
    NoUploading (execUpload st (UploadAction.select f id)) := by
  intro g hg
  simp only [execUpload] at hg
  rcases List.mem_append.mp hg with hg | hg
  · exact h g hg
  · simp only [List.mem_singleton] at hg
    subst hg
    simp [mkPendingFile]

theorem soleUploading_start (st : ChatUploadState) (i : String)
    (h : NoUploading st) :
    SoleUploading (execUpload st (UploadAction.start i)) i := by
  intro g hg hs
  simp only [execUpload, setProg, setStat, List.map_map] at hg
  rcases List.mem_map.mp hg with ⟨g0, hg0, rfl⟩
  by_cases h0 : g0.id = i
  · simp [Function.comp, execUpload, h0]
  · exfalso
    apply h g0 hg0
    simpa [Function.comp, h0] using hs

theorem soleUploading_advance (st : ChatUploadState) (i : String) (p : Int)
    (h : SoleUploading st i) :
    SoleUploading (execUpload st (UploadAction.advance i p)) i := by
  intro g hg hs
  simp only [execUpload, setProg] at hg
  rcases List.mem_map.mp hg with ⟨g0, hg0, rfl⟩
  by_cases h0 : g0.id = i
  · simp [execUpload, h0]
  · simp only [if_neg h0] at hs ⊢
    exact absurd (h g0 hg0 hs).1 h0

theorem soleUploading_handoff (st : ChatUploadState) (i j : String)
    (h : SoleUploading st i) :
    SoleUploading (execUpload st (UploadAction.handoff i j)) j := by
  intro g hg hs
  simp only [execUpload, setProg, setStat, List.map_map] at hg
  rcases List.mem_map.mp hg with ⟨g0, hg0, rfl⟩
  by_cases h0j : g0.id = j
  · by_cases h0i : g0.id = i
    · have hij : i = j := h0i.symm.trans h0j
      subst hij
      simp [Function.comp, execUpload, h0i]
    · have hji : ¬ j = i := fun hji => h0i (h0j.trans hji)
      simp [Function.comp, execUpload, h0i, h0j, hji]
  · by_cases h0i : g0.id = i
    · have hij : ¬ i = j := fun hij => h0j (h0i.trans hij)
      exfalso
      simp [Function.comp, h0i, h0j, hij] at hs
    · simp only [Function.comp, if_neg h0i, if_neg h0j] at hs
      exact absurd (h g0 hg0 hs).1 h0i

theorem noUploading_finish (st : ChatUploadState) (i : String)
    (h : SoleUploading st i) :
    NoUploading (execUpload st (UploadAction.finish i)) := by
  intro g hg hs
  simp only [execUpload, setStat] at hg
  rcases List.mem_map.mp hg with ⟨g0, hg0, rfl⟩
  by_cases h0 : g0.id = i
  · simp [h0] at hs
  · simp only [if_neg h0] at hs
    exact absurd (h g0 hg0 hs).1 h0

theorem statesFrom_nil (st : ChatUploadState) : statesFrom st [] = [st] :=
  rfl

theorem statesFrom_cons (st : ChatUploadState) (a : UploadAction)
    (l : List UploadAction) :
    statesFrom st (a :: l) = st :: statesFrom (execUpload st a) l := rfl

theorem statesFrom_all_append (P : ChatUploadState → Prop)
    (l1 l2 : List UploadAction) :
    ∀ st : ChatUploadState, (∀ s ∈ statesFrom st l1, P s) →
      (∀ s ∈ statesFrom (runUpload st l1) l2, P s) →
      ∀ s ∈ statesFrom st (l1 ++ l2), P s := by
  induction l1 with
  | nil =>
    intro st _ h2 s hs
    exact h2 s hs
  | cons a l1 ih =>
    intro st h1 h2 s hs
    rw [List.cons_append, statesFrom_cons] at hs
    rcases List.mem_cons.mp hs with hs | hs
    · subst hs
      exact h1 _ (by rw [statesFrom_cons]; exact List.mem_cons_self _ _)
    · refine ih (execUpload st a) (fun s0 hs0 => h1 s0 ?_) h2 s hs
      rw [statesFrom_cons]
      exact List.mem_cons_of_mem _ hs0

theorem soleUploading_advance_chain (i : String) (ps : List Int) :
    ∀ st : ChatUploadState, SoleUploading st i →
      (∀ s ∈ statesFrom st (ps.map (fun p => UploadAction.advance i p)),
        SoleUploading s i) ∧
      SoleUploading
        (runUpload st (ps.map (fun p => UploadAction.advance i p))) i := by
  induction ps with
  | nil =>
    intro st h
    refine ⟨?_, h⟩
    intro s hs
    rw [List.map_nil, statesFrom_nil, List.mem_singleton] at hs
    subst hs
    exact h
  | cons p ps ih =>
    intro st h
    have hstep := soleUploading_advance st i p h
    constructor
    · intro s hs
      rw [List.map_cons, statesFrom_cons] at hs
      rcases List.mem_cons.mp hs with hs | hs
      · subst hs
        exact h
      · exact (ih _ hstep).1 s hs
    · exact (ih _ hstep).2

theorem perFile_eq_map (i : String) :
    perFile i = ((List.range 10).map (fun k => (10 : Int) * ((k : Int) + 1))).map
      (fun p => UploadAction.advance i p) := by
  rw [List.map_map]
  rfl

theorem restTrace_states (rest : List String) :
    ∀ (prev : String) (st : ChatUploadState), SoleUploading st prev →
      ∀ s ∈ statesFrom st (restTrace prev rest),
        NoUploading s ∨ ∃ i, SoleUploading s i := by
  induction rest with
  | nil =>
    intro prev st h s hs
    rw [show restTrace prev [] = [UploadAction.finish prev] from rfl,
      statesFrom_cons] at hs
    rcases List.mem_cons.mp hs with hs | hs
    · subst hs
      exact Or.inr ⟨prev, h⟩
    · rw [statesFrom_nil, List.mem_singleton] at hs
      subst hs
      exact Or.inl (noUploading_finish st prev h)
  | cons j rest ih =>
    intro prev st h s hs
    rw [show restTrace prev (j :: rest) = UploadAction.handoff prev j ::
      (perFile j ++ restTrace j rest) from rfl, statesFrom_cons] at hs
    rcases List.mem_cons.mp hs with hs | hs
    · subst hs
      exact Or.inr ⟨prev, h⟩
    · have hj : SoleUploading (execUpload st (UploadAction.handoff prev j))
          j := soleUploading_handoff st prev j h
      have hchain := soleUploading_advance_chain j
        ((List.range 10).map (fun k => (10 : Int) * ((k : Int) + 1)))
        (execUpload st (UploadAction.handoff prev j)) hj
      rw [← perFile_eq_map] at hchain
      refine statesFrom_all_append
        (fun s1 => NoUploading s1 ∨ ∃ i0, SoleUploading s1 i0)
        (perFile j) (restTrace j rest) _ ?_ ?_ s hs
      · intro s0 hs0
        exact Or.inr ⟨j, hchain.1 s0 hs0⟩
      · intro s0 hs0
        exact ih j _ hchain.2 s0 hs0

theorem batchTrace_states (ids : List String) (st : ChatUploadState)
    (h : NoUploading st) :
    ∀ s ∈ statesFrom st (batchTrace ids),
      NoUploading s ∨ ∃ i, SoleUploading s i := by
  cases ids with
  | nil =>
    intro s hs
    rw [show batchTrace [] = [] from rfl, statesFrom_nil,
      List.mem_singleton] at hs
    subst hs
    exact Or.inl h
  | cons i rest =>
    intro s hs
    rw [show batchTrace (i :: rest) = UploadAction.start i ::
      (perFile i ++ restTrace i rest) from rfl, statesFrom_cons] at hs
    rcases List.mem_cons.mp hs with hs | hs
    · subst hs
      exact Or.inl h
    · have hi : SoleUploading (execUpload st (UploadAction.start i)) i :=
        soleUploading_start st i h
      have hchain := soleUploading_advance_chain i
        ((List.range 10).map (fun k => (10 : Int) * ((k : Int) + 1)))
        (execUpload st (UploadAction.start i)) hi
      rw [← perFile_eq_map] at hchain
      refine statesFrom_all_append
        (fun s1 => NoUploading s1 ∨ ∃ i0, SoleUploading s1 i0)
        (perFile i) (restTrace i rest) _ ?_ ?_ s hs
      · intro s0 hs0
        exact Or.inr ⟨i, hchain.1 s0 hs0⟩
      · intro s0 hs0
        exact restTrace_states rest i _ hchain.2 s0 hs0

theorem meanList_const (l : List Int) (c : Int) (h : ∀ x ∈ l, x = c)
    (hne : l ≠ []) : meanList l = c := by
  have hrep : l = List.replicate l.length c := List.eq_replicate_length.mpr h
  have hlen : l.length ≠ 0 := by
    simpa [List.length_eq_zero] using hne
  rw [meanList, hrep, List.sum_replicate, List.length_replicate,
    nsmul_eq_mul]
  exact Int.mul_ediv_cancel_left _ (by exact_mod_cast hlen)

/-- Claim C9 (amended): while a single batch runs from a state with no
uploading entry, at every observable point every uploading entry carries
exactly the reported aggregate progress, so the reported value equals the
arithmetic mean of per-entry progress over exactly the uploading entries
whenever that set is nonempty; pending and finished entries never enter it.
(With two overlapping batches the reported value is just the last written
per-file progress and can differ from the mean — see the counterexample.) -/
theorem single_batch_reported_is_mean (st0 : ChatUploadState)
    (ids : List String) (h0 : NoUploading st0) :
    ∀ s ∈ statesFrom st0 (batchTrace ids),
      uploadingProgresses s ≠ [] →
        meanList (uploadingProgresses s) = s.uploadProgress := by
  intro s hs hne
  rcases batchTrace_states ids st0 h0 s hs with hno | ⟨i, hsole⟩
  · exfalso
    apply hne
    simp only [uploadingProgresses]
    rw [List.filter_eq_nil_iff.mpr
      (fun f hf => by simpa using hno f hf)]
    rfl
  · apply meanList_const _ _ _ hne
    intro x hx
    rcases List.mem_map.mp hx with ⟨f, hf, rfl⟩
    have hmem := List.mem_filter.mp hf
    have hup := hsole f hmem.1 (by simpa using hmem.2)
    rw [hup.2]
    rfl

/-- Witness for C9 (amended): six segments into the single-file run, the
lone uploading entry stands at 50 and the reported aggregate is its mean. -/
theorem single_batch_reported_is_mean_witness :
    uploadingProgresses stateC9Mid ≠ [] ∧
    meanList (uploadingProgresses stateC9Mid) = stateC9Mid.uploadProgress :=
  ⟨by decide,
   single_batch_reported_is_mean chatSingle ["a"]
     (show ∀ f ∈ chatSingle.files, f.status ≠ FileStatus.uploading by decide)
     stateC9Mid (by decide) (by decide)⟩

/-- Counterexample for C9 as stated: two selections whose uploads overlap —
the schedule below is a prefix of the first flow followed by a prefix of
the second, hence a reachable interleaving — produce an observable point
with two uploading entries at progress 50 and 0 where the reported
aggregate is 0, while the arithmetic mean over the uploading entries is
25. -/
theorem aggregate_not_mean_with_two_batches :
    schedC9 = (flowTrace fileA "a").take 7 ++ (flowTrace fileB "b").take 2 ∧
    stateC9.isUploading = true ∧
    uploadingProgresses stateC9 = [50, 0] ∧
    stateC9.uploadProgress = 0 ∧
    meanList (uploadingProgresses stateC9) = 25 ∧
    stateC9.uploadProgress ≠ meanList (uploadingProgresses stateC9) := by
  decide

end Chatbot
